import Mathlib

/-!
Verification of the allpix-squared Messenger core (src/core/messenger fragment).

The embedding models the Messenger publish/subscribe bus found in the source
header (`Messenger.h`): the delegate registry
`std::map<std::type_index, std::map<std::string, std::vector<BaseDelegate*>>>`,
the three registration operations `registerListener`, `bindSingle`, `bindMulti`,
and the two template `dispatchMessage` overloads.  C++ runtime type identities
(`std::type_index`), module pointers, member pointers and `shared_ptr`
identities are modelled as natural numbers; `std::string` channels are Lean
strings.  The body of the non-template `dispatchMessage(std::shared_ptr<Message>,
std::string)` overload and the delegate `process` implementations live in
translation units absent from the available sources, so they are modelled from
the specification (marked `Modelled from the spec:` below).
-/

/-- A stable runtime type identifier, modelling `std::type_index` derived from
`typeid`.  Equality is identity equality of the concrete type. -/
abbrev MessageType := Nat

/-- A channel name, modelling the `std::string message_type` / `name` argument.
The empty string is the default catch-all channel. -/
abbrev Channel := String

/-- Identity of a receiving module (`T *receiver` in the source). -/
abbrev ModuleId := Nat

/-- Identity of a bound method pointer or member slot pointer
(`void (T::*)(shared_ptr<R>)`, `shared_ptr<R> T::*` or
`vector<shared_ptr<R>> T::*`). -/
abbrev TargetId := Nat

/-- Identity of one `shared_ptr` allocation (the object a shared pointer
refers to). -/
abbrev Ref := Nat

/-- Opaque message payload content; the bus never inspects it. -/
abbrev Payload := Nat

/-- The three delegate disciplines in `delegates.h`: `Delegate` (listener
callback), `SingleBindDelegate` and `VectorBindDelegate`. -/
inductive DelegateKind where
  | listener
  | singleBind
  | multiBind
deriving DecidableEq, Repr

/-- A registered delegate (`BaseDelegate*` in the source): its discipline, the
receiving module, the bound method/member target, and the message type `R` it
was instantiated with. -/
structure BaseDelegate where
  kind : DelegateKind
  receiver : ModuleId
  target : TargetId
  msgType : MessageType
deriving DecidableEq, Repr

/-- A message object: its concrete (most-derived) runtime type tag, i.e.
`typeid(*msg)`, and the identity of the `shared_ptr` allocation holding it. -/
structure Message where
  ty : MessageType
  ref : Ref
deriving DecidableEq, Repr

/-- Inner map of the registry: `std::map<std::string, std::vector<BaseDelegate*>>`,
as an association list in key-insertion order. -/
abbrev ChannelMap := List (Channel × List BaseDelegate)

/-- Outer registry map: `std::map<std::type_index, ...>`. -/
abbrev DelegateMap := List (MessageType × ChannelMap)

/-- Lookup `cm[ch]` without inserting: the delegate vector filed under a
channel, empty when the key is absent. -/
def ChannelMap.get (cm : ChannelMap) (ch : Channel) : List BaseDelegate :=
  match cm with
  | [] => []
  | (c, ds) :: rest => if c = ch then ds else ChannelMap.get rest ch

/-- The effect of `cm[ch].push_back(d)`: append to the vector under `ch`,
inserting the key when absent. -/
def ChannelMap.push (cm : ChannelMap) (ch : Channel) (d : BaseDelegate) : ChannelMap :=
  match cm with
  | [] => [(ch, [d])]
  | (c, ds) :: rest =>
      if c = ch then (c, ds ++ [d]) :: rest else (c, ds) :: ChannelMap.push rest ch d

/-- Lookup `dm[ty][ch]` without inserting. -/
def DelegateMap.get (dm : DelegateMap) (ty : MessageType) (ch : Channel) :
    List BaseDelegate :=
  match dm with
  | [] => []
  | (t, cm) :: rest => if t = ty then cm.get ch else DelegateMap.get rest ty ch

/-- The effect of `dm[ty][ch].push_back(d)` in the registration functions. -/
def DelegateMap.push (dm : DelegateMap) (ty : MessageType) (ch : Channel)
    (d : BaseDelegate) : DelegateMap :=
  match dm with
  | [] => [(ty, ChannelMap.push [] ch d)]
  | (t, cm) :: rest =>
      if t = ty then (t, cm.push ch d) :: rest else (t, cm) :: DelegateMap.push rest ty ch d

/-- The bus together with the receiver-side state dispatch writes to.
`delegates_` is the Messenger's registry field.  The remaining fields model the
observable state of the external modules: `singleSlots` the
`shared_ptr<R> T::*` members (None = null pointer), `multiSlots` the
`vector<shared_ptr<R>> T::*` members, `trace` the ordered record of delegate
invocations, `store` the heap of `shared_ptr` allocations, and `nextRef` the
next fresh allocation identity. -/
structure World where
  delegates_ : DelegateMap
  singleSlots : List ((ModuleId × TargetId) × Ref)
  multiSlots : List ((ModuleId × TargetId) × List Ref)
  trace : List (BaseDelegate × Ref)
  store : List (Ref × Payload)
  nextRef : Ref
deriving DecidableEq, Repr

/-- The world of a freshly constructed Messenger with no registrations. -/
def emptyWorld : World := ⟨[], [], [], [], [], 0⟩

/-- Current value of a single-bind slot member (None models the null
`shared_ptr`). -/
def getSingle (l : List ((ModuleId × TargetId) × Ref)) (k : ModuleId × TargetId) :
    Option Ref :=
  match l with
  | [] => none
  | (k', r) :: rest => if k' = k then some r else getSingle rest k

/-- Overwrite a single-bind slot member with a new message reference. -/
def setSingle (l : List ((ModuleId × TargetId) × Ref)) (k : ModuleId × TargetId)
    (r : Ref) : List ((ModuleId × TargetId) × Ref) :=
  match l with
  | [] => [(k, r)]
  | (k', r') :: rest =>
      if k' = k then (k, r) :: rest else (k', r') :: setSingle rest k r

/-- Current contents of a multi-bind slot member (the vector, empty
initially). -/
def getMulti (l : List ((ModuleId × TargetId) × List Ref)) (k : ModuleId × TargetId) :
    List Ref :=
  match l with
  | [] => []
  | (k', rs) :: rest => if k' = k then rs else getMulti rest k

/-- Append a message reference to a multi-bind slot member
(`vector::push_back`). -/
def pushMulti (l : List ((ModuleId × TargetId) × List Ref)) (k : ModuleId × TargetId)
    (r : Ref) : List ((ModuleId × TargetId) × List Ref) :=
  match l with
  | [] => [(k, [r])]
  | (k', rs) :: rest =>
      if k' = k then (k, rs ++ [r]) :: rest else (k', rs) :: pushMulti rest k r

/-- Heap lookup of a `shared_ptr` allocation's payload. -/
def getStore (l : List (Ref × Payload)) (r : Ref) : Payload :=
  match l with
  | [] => 0
  | (r', p) :: rest => if r' = r then p else getStore rest r

/-- Embeds `Messenger::registerListener` (source lines 62-68): constructs a
listener `Delegate<T, R>(receiver, method)` and executes
`delegates_[std::type_index(typeid(R))][message_type].push_back(delegate)`.
`R` is the static message type of the method parameter. -/
def registerListener (w : World) (receiver : ModuleId) (method : TargetId)
    (R : MessageType) (message_type : Channel) : World :=
  { w with delegates_ :=
      w.delegates_.push R message_type ⟨DelegateKind.listener, receiver, method, R⟩ }

/-- Embeds `Messenger::bindSingle` (source lines 69-75): constructs a
`SingleBindDelegate<T, R>(receiver, member)` and pushes it onto
`delegates_[typeid(R)][message_type]`. -/
def bindSingle (w : World) (receiver : ModuleId) (member : TargetId)
    (R : MessageType) (message_type : Channel) : World :=
  { w with delegates_ :=
      w.delegates_.push R message_type ⟨DelegateKind.singleBind, receiver, member, R⟩ }

/-- Embeds `Messenger::bindMulti` (source lines 78-84): constructs a
`VectorBindDelegate<T, R>(receiver, member)` and pushes it onto
`delegates_[typeid(R)][message_type]`. -/
def bindMulti (w : World) (receiver : ModuleId) (member : TargetId)
    (R : MessageType) (message_type : Channel) : World :=
  { w with delegates_ :=
      w.delegates_.push R message_type ⟨DelegateKind.multiBind, receiver, member, R⟩ }

/-- Modelled from the spec: the `process` implementations of the three delegate
variants in `delegates.h`, which is absent from the available sources.  Per the
spec's dispatch step 3: a Listener invokes its bound method with the message, a
SingleBind overwrites its slot with the message, a MultiBind appends the
message to its slot's sequence.  Every invocation is recorded in the trace. -/
def deliver (w : World) (d : BaseDelegate) (msg : Message) : World :=
  let w1 := { w with trace := w.trace ++ [(d, msg.ref)] }
  match d.kind with
  | DelegateKind.listener => w1
  | DelegateKind.singleBind =>
      { w1 with singleSlots := setSingle w1.singleSlots (d.receiver, d.target) msg.ref }
  | DelegateKind.multiBind =>
      { w1 with multiSlots := pushMulti w1.multiSlots (d.receiver, d.target) msg.ref }

/-- Modelled from the spec: the delegate lists consulted by dispatch step 2.
The `RegistryEntry` for `(ty, ch)` and, when `ch` is non-empty, also the entry
for `(ty, "")`, explicit-channel receivers placed before wildcard receivers,
each list in registration order. -/
def selectDelegates (dm : DelegateMap) (ty : MessageType) (ch : Channel) :
    List BaseDelegate :=
  if ch = "" then dm.get ty "" else dm.get ty ch ++ dm.get ty ""

/-- Modelled from the spec: the body of the non-template
`Messenger::dispatchMessage(std::shared_ptr<Message> msg, std::string name)`
(declared at source line 42; its translation unit is absent).  Dispatch step 1
computes the MessageType from the concrete runtime type `typeid(*msg)`, here
`msg.ty`; steps 2-3 invoke each selected delegate in order. -/
def dispatchCore (w : World) (msg : Message) (ch : Channel) : World :=
  (selectDelegates w.delegates_ msg.ty ch).foldl (fun acc d => deliver acc d msg) w

/-- Embeds the template overload
`Messenger::dispatchMessage(std::shared_ptr<T> msg, std::string name)`
(source lines 56-59): `std::static_pointer_cast<Message>(msg)` re-types the
handle without touching the pointee, so the static handle type `S` does not
enter the dispatch; the concrete type tag carried by the object does. -/
def dispatchMessageShared (w : World) (S : MessageType) (msg : Message)
    (ch : Channel) : World :=
  dispatchCore w msg ch

/-- Embeds the const-reference overload
`Messenger::dispatchMessage(const T &msg, std::string name)` (source lines
51-55): `std::make_shared<T>(msg)` allocates a fresh copy of the caller's
object — with dynamic type `S`, the static template argument — and dispatches
the shared handle to that copy. -/
def dispatchMessageRef (w : World) (S : MessageType) (origRef : Ref)
    (ch : Channel) : World :=
  let content := getStore w.store origRef
  let fresh := w.nextRef
  let w1 := { w with store := w.store ++ [(fresh, content)], nextRef := w.nextRef + 1 }
  dispatchMessageShared w1 S ⟨S, fresh⟩ ch

/-- A sequence of dispatch calls, folded left in call order. -/
def dispatchAll (w : World) (evs : List (Message × Channel)) : World :=
  evs.foldl (fun acc e => dispatchCore acc e.1 e.2) w

/-! ### Registry map lemmas -/

theorem ChannelMap.get_push_back_same (cm : ChannelMap) (ch : Channel) (d : BaseDelegate) :
    (cm.push ch d).get ch = cm.get ch ++ [d] := by
  induction cm with
  | nil => simp [ChannelMap.push, ChannelMap.get]
  | cons head rest ih =>
      obtain ⟨c, ds⟩ := head
      by_cases hc : c = ch
      · simp [ChannelMap.push, ChannelMap.get, hc]
      · simp [ChannelMap.push, ChannelMap.get, hc, ih]

theorem ChannelMap.get_push_back_other (cm : ChannelMap) (ch ch' : Channel)
    (d : BaseDelegate) (h : ch' ≠ ch) : (cm.push ch d).get ch' = cm.get ch' := by
  induction cm with
  | nil => simp [ChannelMap.push, ChannelMap.get, Ne.symm h]
  | cons head rest ih =>
      obtain ⟨c, ds⟩ := head
      by_cases hc : c = ch
      · subst hc
        simp [ChannelMap.push, ChannelMap.get, Ne.symm h]
      · simp [ChannelMap.push, ChannelMap.get, hc, ih]

theorem DelegateMap.get_push_same (dm : DelegateMap) (ty : MessageType)
    (ch : Channel) (d : BaseDelegate) :
    (dm.push ty ch d).get ty ch = dm.get ty ch ++ [d] := by
  induction dm with
  | nil => simp [DelegateMap.push, DelegateMap.get, ChannelMap.get_push_back_same, ChannelMap.get]
  | cons head rest ih =>
      obtain ⟨t, cm⟩ := head
      by_cases ht : t = ty
      · simp [DelegateMap.push, DelegateMap.get, ht, ChannelMap.get_push_back_same]
      · simp [DelegateMap.push, DelegateMap.get, ht, ih]

theorem DelegateMap.get_push_ty_ne (dm : DelegateMap) (ty ty' : MessageType)
    (ch ch' : Channel) (d : BaseDelegate) (hty : ty' ≠ ty) :
    (dm.push ty ch d).get ty' ch' = dm.get ty' ch' := by
  induction dm with
  | nil => simp [DelegateMap.push, DelegateMap.get, Ne.symm hty]
  | cons head rest ih =>
      obtain ⟨t, cm⟩ := head
      by_cases ht : t = ty
      · subst ht
        simp [DelegateMap.push, DelegateMap.get, Ne.symm hty]
      · simp [DelegateMap.push, DelegateMap.get, ht, ih]

theorem DelegateMap.get_push_ch_ne (dm : DelegateMap) (ty ty' : MessageType)
    (ch ch' : Channel) (d : BaseDelegate) (hch : ch' ≠ ch) :
    (dm.push ty ch d).get ty' ch' = dm.get ty' ch' := by
  induction dm with
  | nil =>
      simp [DelegateMap.push, DelegateMap.get,
        ChannelMap.get_push_back_other _ _ _ _ hch, ChannelMap.get, Ne.symm hch]
  | cons head rest ih =>
      obtain ⟨t, cm⟩ := head
      by_cases ht : t = ty
      · subst ht
        simp [DelegateMap.push, DelegateMap.get, ChannelMap.get_push_back_other _ _ _ _ hch]
      · simp [DelegateMap.push, DelegateMap.get, ht, ih]

theorem DelegateMap.get_push_other (dm : DelegateMap) (ty ty' : MessageType)
    (ch ch' : Channel) (d : BaseDelegate) (h : (ty', ch') ≠ (ty, ch)) :
    (dm.push ty ch d).get ty' ch' = dm.get ty' ch' := by
  by_cases hty : ty' = ty
  · subst hty
    have hch : ch' ≠ ch := by
      intro hc
      exact h (by rw [hc])
    exact DelegateMap.get_push_ch_ne dm ty' ty' ch ch' d hch
  · exact DelegateMap.get_push_ty_ne dm ty ty' ch ch' d hty

/-! ### Dispatch structure lemmas -/

theorem deliver_delegates (w : World) (d : BaseDelegate) (msg : Message) :
    (deliver w d msg).delegates_ = w.delegates_ := by
  cases h : d.kind <;> simp [deliver, h]

theorem deliver_store (w : World) (d : BaseDelegate) (msg : Message) :
    (deliver w d msg).store = w.store := by
  cases h : d.kind <;> simp [deliver, h]

theorem deliver_nextRef (w : World) (d : BaseDelegate) (msg : Message) :
    (deliver w d msg).nextRef = w.nextRef := by
  cases h : d.kind <;> simp [deliver, h]

theorem deliver_trace (w : World) (d : BaseDelegate) (msg : Message) :
    (deliver w d msg).trace = w.trace ++ [(d, msg.ref)] := by
  cases h : d.kind <;> simp [deliver, h]

theorem foldl_deliver_delegates (ds : List BaseDelegate) (w : World) (msg : Message) :
    (ds.foldl (fun acc d => deliver acc d msg) w).delegates_ = w.delegates_ := by
  induction ds generalizing w with
  | nil => rfl
  | cons d rest ih => simp [List.foldl_cons, ih, deliver_delegates]

theorem foldl_deliver_store (ds : List BaseDelegate) (w : World) (msg : Message) :
    (ds.foldl (fun acc d => deliver acc d msg) w).store = w.store := by
  induction ds generalizing w with
  | nil => rfl
  | cons d rest ih => simp [List.foldl_cons, ih, deliver_store]

theorem foldl_deliver_nextRef (ds : List BaseDelegate) (w : World) (msg : Message) :
    (ds.foldl (fun acc d => deliver acc d msg) w).nextRef = w.nextRef := by
  induction ds generalizing w with
  | nil => rfl
  | cons d rest ih => simp [List.foldl_cons, ih, deliver_nextRef]

theorem foldl_deliver_trace (ds : List BaseDelegate) (w : World) (msg : Message) :
    (ds.foldl (fun acc d => deliver acc d msg) w).trace
      = w.trace ++ ds.map (fun d => (d, msg.ref)) := by
  induction ds generalizing w with
  | nil => simp
  | cons d rest ih => simp [List.foldl_cons, ih, deliver_trace]

theorem dispatchCore_delegates (w : World) (msg : Message) (ch : Channel) :
    (dispatchCore w msg ch).delegates_ = w.delegates_ := by
  simp [dispatchCore, foldl_deliver_delegates]

theorem dispatchCore_store (w : World) (msg : Message) (ch : Channel) :
    (dispatchCore w msg ch).store = w.store := by
  simp [dispatchCore, foldl_deliver_store]

theorem dispatchCore_nextRef (w : World) (msg : Message) (ch : Channel) :
    (dispatchCore w msg ch).nextRef = w.nextRef := by
  simp [dispatchCore, foldl_deliver_nextRef]

theorem dispatchCore_trace (w : World) (msg : Message) (ch : Channel) :
    (dispatchCore w msg ch).trace
      = w.trace ++ (selectDelegates w.delegates_ msg.ty ch).map (fun d => (d, msg.ref)) := by
  simp [dispatchCore, foldl_deliver_trace]

/-! ### Slot lemmas -/

theorem getSingle_setSingle_same (l : List ((ModuleId × TargetId) × Ref))
    (k : ModuleId × TargetId) (r : Ref) : getSingle (setSingle l k r) k = some r := by
  induction l with
  | nil => simp [setSingle, getSingle]
  | cons head rest ih =>
      obtain ⟨k', r'⟩ := head
      by_cases hk : k' = k
      · simp [setSingle, getSingle, hk]
      · simp [setSingle, getSingle, hk, ih]

theorem getSingle_setSingle_other (l : List ((ModuleId × TargetId) × Ref))
    (k k' : ModuleId × TargetId) (r : Ref) (h : k' ≠ k) :
    getSingle (setSingle l k r) k' = getSingle l k' := by
  induction l with
  | nil => simp [setSingle, getSingle, Ne.symm h]
  | cons head rest ih =>
      obtain ⟨k'', r'⟩ := head
      by_cases hk : k'' = k
      · subst hk
        simp [setSingle, getSingle, Ne.symm h]
      · simp [setSingle, getSingle, hk, ih]

theorem getMulti_pushMulti_same (l : List ((ModuleId × TargetId) × List Ref))
    (k : ModuleId × TargetId) (r : Ref) :
    getMulti (pushMulti l k r) k = getMulti l k ++ [r] := by
  induction l with
  | nil => simp [pushMulti, getMulti]
  | cons head rest ih =>
      obtain ⟨k', rs⟩ := head
      by_cases hk : k' = k
      · simp [pushMulti, getMulti, hk]
      · simp [pushMulti, getMulti, hk, ih]

theorem getMulti_pushMulti_other (l : List ((ModuleId × TargetId) × List Ref))
    (k k' : ModuleId × TargetId) (r : Ref) (h : k' ≠ k) :
    getMulti (pushMulti l k r) k' = getMulti l k' := by
  induction l with
  | nil => simp [pushMulti, getMulti, Ne.symm h]
  | cons head rest ih =>
      obtain ⟨k'', rs⟩ := head
      by_cases hk : k'' = k
      · subst hk
        simp [pushMulti, getMulti, Ne.symm h]
      · simp [pushMulti, getMulti, hk, ih]

theorem deliver_getSingle (w : World) (d : BaseDelegate) (msg : Message)
    (key : ModuleId × TargetId) :
    getSingle (deliver w d msg).singleSlots key
      = if d.kind = DelegateKind.singleBind ∧ key = (d.receiver, d.target)
        then some msg.ref else getSingle w.singleSlots key := by
  cases hk : d.kind with
  | listener => simp [deliver, hk]
  | multiBind => simp [deliver, hk]
  | singleBind =>
      by_cases hkey : key = (d.receiver, d.target)
      · simp [deliver, hk, hkey, getSingle_setSingle_same]
      · simp [deliver, hk, hkey, getSingle_setSingle_other _ _ _ _ hkey]

theorem deliver_getMulti (w : World) (d : BaseDelegate) (msg : Message)
    (key : ModuleId × TargetId) :
    getMulti (deliver w d msg).multiSlots key
      = if d.kind = DelegateKind.multiBind ∧ key = (d.receiver, d.target)
        then getMulti w.multiSlots key ++ [msg.ref]
        else getMulti w.multiSlots key := by
  cases hk : d.kind with
  | listener => simp [deliver, hk]
  | singleBind => simp [deliver, hk]
  | multiBind =>
      by_cases hkey : key = (d.receiver, d.target)
      · simp [deliver, hk, hkey, getMulti_pushMulti_same]
      · simp [deliver, hk, hkey, getMulti_pushMulti_other _ _ _ _ hkey]

theorem foldl_deliver_getSingle_cases (ds : List BaseDelegate) (w : World)
    (msg : Message) (key : ModuleId × TargetId) :
    getSingle (ds.foldl (fun acc d => deliver acc d msg) w).singleSlots key
        = getSingle w.singleSlots key
    ∨ getSingle (ds.foldl (fun acc d => deliver acc d msg) w).singleSlots key
        = some msg.ref := by
  induction ds generalizing w with
  | nil => exact Or.inl rfl
  | cons d rest ih =>
      rcases ih (deliver w d msg) with h | h
      · rw [List.foldl_cons]
        rw [h, deliver_getSingle]
        by_cases hc : d.kind = DelegateKind.singleBind ∧ key = (d.receiver, d.target)
        · exact Or.inr (by simp [hc])
        · exact Or.inl (by simp [hc])
      · exact Or.inr (by rw [List.foldl_cons]; exact h)

theorem foldl_deliver_getMulti_replicate (ds : List BaseDelegate) (w : World)
    (msg : Message) (key : ModuleId × TargetId) :
    ∃ n, getMulti (ds.foldl (fun acc d => deliver acc d msg) w).multiSlots key
        = getMulti w.multiSlots key ++ List.replicate n msg.ref := by
  induction ds generalizing w with
  | nil => exact ⟨0, by simp⟩
  | cons d rest ih =>
      obtain ⟨n, hn⟩ := ih (deliver w d msg)
      rw [List.foldl_cons]
      by_cases hc : d.kind = DelegateKind.multiBind ∧ key = (d.receiver, d.target)
      · refine ⟨n + 1, ?_⟩
        rw [hn, deliver_getMulti]
        simp [hc, List.replicate_succ]
      · refine ⟨n, ?_⟩
        rw [hn, deliver_getMulti]
        simp [hc]

/-! ### Claim theorems -/

/-- Claim C5: every register/bindSingle/bindMulti call appends its new Delegate
at the end of the existing ordered sequence for the (MessageType, Channel)
registry entry; registration on a key leaves every other entry unchanged; and
dispatch never changes the registry at all, so an entry's delegate order equals
registration order. -/
theorem spec_C5 (w : World) (recv : ModuleId) (tgt : TargetId) (R : MessageType)
    (ch : Channel) (ty' : MessageType) (ch' : Channel) (msg : Message) (dch : Channel)
    (h : (ty', ch') ≠ (R, ch)) :
    ((registerListener w recv tgt R ch).delegates_.get R ch
        = w.delegates_.get R ch ++ [⟨DelegateKind.listener, recv, tgt, R⟩]
      ∧ (bindSingle w recv tgt R ch).delegates_.get R ch
        = w.delegates_.get R ch ++ [⟨DelegateKind.singleBind, recv, tgt, R⟩]
      ∧ (bindMulti w recv tgt R ch).delegates_.get R ch
        = w.delegates_.get R ch ++ [⟨DelegateKind.multiBind, recv, tgt, R⟩])
    ∧ ((registerListener w recv tgt R ch).delegates_.get ty' ch' = w.delegates_.get ty' ch'
      ∧ (bindSingle w recv tgt R ch).delegates_.get ty' ch' = w.delegates_.get ty' ch'
      ∧ (bindMulti w recv tgt R ch).delegates_.get ty' ch' = w.delegates_.get ty' ch')
    ∧ (dispatchCore w msg dch).delegates_ = w.delegates_ := by
  refine ⟨⟨?_, ?_, ?_⟩, ⟨?_, ?_, ?_⟩, ?_⟩
  · exact DelegateMap.get_push_same w.delegates_ R ch _
  · exact DelegateMap.get_push_same w.delegates_ R ch _
  · exact DelegateMap.get_push_same w.delegates_ R ch _
  · exact DelegateMap.get_push_other w.delegates_ R ty' ch ch' _ h
  · exact DelegateMap.get_push_other w.delegates_ R ty' ch ch' _ h
  · exact DelegateMap.get_push_other w.delegates_ R ty' ch ch' _ h
  · exact dispatchCore_delegates w msg dch

/-- Witness for C5 at a concrete state: a registration under (1, "a") leaves
the entry (2, "") unchanged. -/
theorem spec_C5_witness :
    (registerListener emptyWorld 0 0 1 "a").delegates_.get 2 ""
      = emptyWorld.delegates_.get 2 "" :=
  (spec_C5 emptyWorld 0 0 1 "a" 2 "" ⟨1, 0⟩ "a" (by decide)).2.1.1

/-- Claim C8: a dispatch whose message type and channel match no registered
delegate returns normally and is a complete no-op: the resulting world, its
registry and every slot included, equals the input world. -/
theorem spec_C8 (w : World) (msg : Message) (ch : Channel)
    (h1 : w.delegates_.get msg.ty ch = []) (h2 : w.delegates_.get msg.ty "" = []) :
    dispatchCore w msg ch = w := by
  unfold dispatchCore selectDelegates
  by_cases hc : ch = ""
  · simp [hc, h2]
  · simp [hc, h1, h2]

/-- Witness for C8: dispatching on the empty Messenger is a no-op. -/
theorem spec_C8_witness : dispatchCore emptyWorld ⟨0, 0⟩ "x" = emptyWorld :=
  spec_C8 emptyWorld ⟨0, 0⟩ "x" rfl rfl

/-- Claim C2: a dispatch of a message with dynamic type `msg.ty` on channel
`ch` invokes exactly the delegates of entry (ty, ch) followed by those of the
wildcard entry (ty, ""), each group in its stored (registration) order, and
only the wildcard group when `ch` is empty; each delegate occurrence is
invoked exactly once (the invocation count equals the sum of its occurrence
counts in the two entries). -/
theorem spec_C2 (w : World) (msg : Message) (ch : Channel) :
    (dispatchCore w msg ch).trace
      = w.trace ++ (if ch = "" then w.delegates_.get msg.ty ""
          else w.delegates_.get msg.ty ch ++ w.delegates_.get msg.ty "").map
            (fun d => (d, msg.ref))
    ∧ (ch ≠ "" → ∀ d : BaseDelegate,
        (selectDelegates w.delegates_ msg.ty ch).count d
          = (w.delegates_.get msg.ty ch).count d
            + (w.delegates_.get msg.ty "").count d) := by
  constructor
  · rw [dispatchCore_trace]
    unfold selectDelegates
    by_cases hc : ch = "" <;> simp [hc]
  · intro hc d
    simp [selectDelegates, hc, List.count_append]

/-- Witness for C2: on a registry with one explicit-channel and one wildcard
delegate for type 5, a dispatch on channel "c" counts one invocation from each
entry. -/
theorem spec_C2_witness :
    (selectDelegates (registerListener (registerListener emptyWorld 0 0 5 "c")
        1 1 5 "").delegates_ 5 "c").count ⟨DelegateKind.listener, 0, 0, 5⟩
      = ((registerListener (registerListener emptyWorld 0 0 5 "c")
        1 1 5 "").delegates_.get 5 "c").count ⟨DelegateKind.listener, 0, 0, 5⟩
        + ((registerListener (registerListener emptyWorld 0 0 5 "c")
        1 1 5 "").delegates_.get 5 "").count ⟨DelegateKind.listener, 0, 0, 5⟩ :=
  (spec_C2 (registerListener (registerListener emptyWorld 0 0 5 "c") 1 1 5 "")
    ⟨5, 0⟩ "c").2 (by decide) ⟨DelegateKind.listener, 0, 0, 5⟩

/-- Claim C1: dispatch routes by the message's concrete (most-derived) runtime
type only.  The static type of the handle passed to the shared-pointer
overload has no effect on the dispatch; every invoked delegate comes from a
registry entry keyed by the message's dynamic type; and a delegate newly
registered for a different type `B` — a base or a sibling of the dynamic type —
leaves the invocation list of the dispatch exactly as it was without that
registration. -/
theorem spec_C1 (w : World) (S : MessageType) (msg : Message) (ch : Channel)
    (B : MessageType) (chB : Channel) (recv : ModuleId) (tgt : TargetId)
    (hB : B ≠ msg.ty) :
    dispatchMessageShared (registerListener w recv tgt B chB) S msg ch
        = dispatchCore (registerListener w recv tgt B chB) msg ch
    ∧ (dispatchCore (registerListener w recv tgt B chB) msg ch).trace
        = w.trace ++ (selectDelegates w.delegates_ msg.ty ch).map (fun d => (d, msg.ref))
    ∧ (∀ d, d ∈ selectDelegates w.delegates_ msg.ty ch →
        d ∈ w.delegates_.get msg.ty ch ∨ d ∈ w.delegates_.get msg.ty "") := by
  refine ⟨rfl, ?_, ?_⟩
  · rw [dispatchCore_trace]
    have hreg : (registerListener w recv tgt B chB).trace = w.trace := rfl
    have hsel : selectDelegates (registerListener w recv tgt B chB).delegates_ msg.ty ch
        = selectDelegates w.delegates_ msg.ty ch := by
      unfold selectDelegates registerListener
      by_cases hc : ch = ""
      · simp [hc, DelegateMap.get_push_ty_ne _ _ _ _ _ _ (Ne.symm hB)]
      · simp [hc, DelegateMap.get_push_ty_ne _ _ _ _ _ _ (Ne.symm hB)]
    rw [hreg, hsel]
  · intro d hd
    unfold selectDelegates at hd
    by_cases hc : ch = ""
    · rw [if_pos hc] at hd
      exact Or.inr hd
    · rw [if_neg hc] at hd
      exact List.mem_append.mp hd

/-- Witness for C1: with a delegate registered for sibling type 7, a message
of dynamic type 5 passed through a handle of static type 3 dispatches to
nobody: its invocation list is that of the registry without the sibling
registration. -/
theorem spec_C1_witness :
    (dispatchCore (registerListener emptyWorld 0 0 7 "") ⟨5, 2⟩ "").trace
      = emptyWorld.trace
        ++ (selectDelegates emptyWorld.delegates_ 5 "").map (fun d => (d, 2)) :=
  (spec_C1 emptyWorld 3 ⟨5, 2⟩ "" 7 "" 0 0 (by decide)).2.1

/-! ### Single-delegate scenario machinery for the slot claims -/

theorem selectDelegates_singleton (T : MessageType) (C : Channel) (dS : BaseDelegate)
    (ty : MessageType) (ch : Channel) :
    selectDelegates [(T, [(C, [dS])])] ty ch
      = if T = ty ∧ (C = "" ∨ ch = C) then [dS] else [] := by
  unfold selectDelegates
  by_cases hty : T = ty
  · subst hty
    by_cases hch : ch = ""
    · subst hch
      by_cases hC : C = ""
      · subst hC
        simp [DelegateMap.get, ChannelMap.get]
      · simp [DelegateMap.get, ChannelMap.get, hC, Ne.symm hC]
    · by_cases hchC : ch = C
      · subst hchC
        simp [DelegateMap.get, ChannelMap.get, hch]
      · by_cases hC : C = ""
        · subst hC
          simp [DelegateMap.get, ChannelMap.get, hch, Ne.symm hchC]
        · simp [DelegateMap.get, ChannelMap.get, hch, hC, hchC, Ne.symm hchC]
  · by_cases hch : ch = "" <;> simp [DelegateMap.get, hty, hch]

theorem dispatchCore_singleton (w : World) (T : MessageType) (C : Channel)
    (dS : BaseDelegate) (msg : Message) (ch : Channel)
    (hw : w.delegates_ = [(T, [(C, [dS])])]) :
    dispatchCore w msg ch
      = if T = msg.ty ∧ (C = "" ∨ ch = C) then deliver w dS msg else w := by
  unfold dispatchCore
  rw [hw, selectDelegates_singleton]
  by_cases hc : T = msg.ty ∧ (C = "" ∨ ch = C)
  · simp [hc]
  · simp [hc]

/-- The reference of the last event in the sequence that matches a binding for
message type `T` on channel `C` (later events take precedence), or none when no
event matches. -/
def lastMatching (T : MessageType) (C : Channel) : List (Message × Channel) → Option Ref
  | [] => none
  | e :: rest =>
      match lastMatching T C rest with
      | some r => some r
      | none => if T = e.1.ty ∧ (C = "" ∨ e.2 = C) then some e.1.ref else none

theorem spec_C3_aux (recv : ModuleId) (tgt : TargetId) (T : MessageType)
    (C : Channel) (evs : List (Message × Channel)) :
    ∀ w : World,
      w.delegates_ = [(T, [(C, [⟨DelegateKind.singleBind, recv, tgt, T⟩])])] →
      getSingle (dispatchAll w evs).singleSlots (recv, tgt)
        = (match lastMatching T C evs with
           | some r => some r
           | none => getSingle w.singleSlots (recv, tgt)) := by
  induction evs with
  | nil =>
      intro w hw
      rfl
  | cons e rest ih =>
      intro w hw
      have hstep : dispatchAll w (e :: rest) = dispatchAll (dispatchCore w e.1 e.2) rest := rfl
      rw [hstep, ih _ (by rw [dispatchCore_delegates]; exact hw)]
      cases hlm : lastMatching T C rest with
      | some r => simp [lastMatching, hlm]
      | none =>
          simp only [lastMatching, hlm]
          rw [dispatchCore_singleton w T C _ e.1 e.2 hw]
          by_cases hc : T = e.1.ty ∧ (C = "" ∨ e.2 = C)
          · rw [if_pos hc, if_pos hc, deliver_getSingle]
            simp
          · rw [if_neg hc, if_neg hc]

/-- Claim C3: a SingleBind slot bound to (T, C) holds, after any sequence of
dispatches, exactly the reference of the last dispatch that matched the
binding — each matching dispatch overwrites the slot (last-write-wins), and a
sequence with no matching dispatch leaves the slot null. -/
theorem spec_C3 (recv : ModuleId) (tgt : TargetId) (T : MessageType) (C : Channel)
    (evs : List (Message × Channel)) :
    getSingle (dispatchAll (bindSingle emptyWorld recv tgt T C) evs).singleSlots
        (recv, tgt)
      = lastMatching T C evs := by
  rw [spec_C3_aux recv tgt T C evs _ rfl]
  cases hlm : lastMatching T C evs with
  | some r => rfl
  | none => rfl

theorem spec_C4_aux (recv : ModuleId) (tgt : TargetId) (T : MessageType)
    (C : Channel) (evs : List (Message × Channel)) :
    ∀ w : World,
      w.delegates_ = [(T, [(C, [⟨DelegateKind.multiBind, recv, tgt, T⟩])])] →
      getMulti (dispatchAll w evs).multiSlots (recv, tgt)
        = getMulti w.multiSlots (recv, tgt)
          ++ (evs.filter (fun e => decide (T = e.1.ty ∧ (C = "" ∨ e.2 = C)))).map
              (fun e => e.1.ref) := by
  induction evs with
  | nil =>
      intro w hw
      simp [dispatchAll]
  | cons e rest ih =>
      intro w hw
      have hstep : dispatchAll w (e :: rest) = dispatchAll (dispatchCore w e.1 e.2) rest := rfl
      rw [hstep, ih _ (by rw [dispatchCore_delegates]; exact hw)]
      rw [dispatchCore_singleton w T C _ e.1 e.2 hw]
      by_cases hc : T = e.1.ty ∧ (C = "" ∨ e.2 = C)
      · rw [if_pos hc]
        rw [deliver_getMulti]
        simp [hc, List.append_assoc]
      · rw [if_neg hc]
        simp [hc]

/-- Claim C4: a MultiBind slot bound to (T, C) holds, after a sequence of
dispatches, exactly the references of the matching dispatches in dispatch
order (so N matching dispatches leave exactly N entries); and in general a
dispatch only ever appends to a MultiBind slot, never removing or overwriting
existing entries. -/
theorem spec_C4 (recv : ModuleId) (tgt : TargetId) (T : MessageType) (C : Channel)
    (evs : List (Message × Channel)) (w : World) (msg : Message) (ch : Channel)
    (key : ModuleId × TargetId) :
    getMulti (dispatchAll (bindMulti emptyWorld recv tgt T C) evs).multiSlots
        (recv, tgt)
      = (evs.filter (fun e => decide (T = e.1.ty ∧ (C = "" ∨ e.2 = C)))).map
          (fun e => e.1.ref)
    ∧ ∃ t, getMulti (dispatchCore w msg ch).multiSlots key
        = getMulti w.multiSlots key ++ t := by
  constructor
  · rw [spec_C4_aux recv tgt T C evs _ rfl]
    rfl
  · obtain ⟨n, hn⟩ :=
      foldl_deliver_getMulti_replicate (selectDelegates w.delegates_ msg.ty ch) w msg key
    exact ⟨List.replicate n msg.ref, hn⟩

/-- Claim C6, counterexample: the source registration path performs no
duplicate detection and raises no error.  Registering the identical
(receiver, member, type, channel) tuple a second time completes normally and
leaves two active delegates in the registry entry, and a subsequent dispatch
invokes both — there is no fail-fast before dispatch as the claim requires. -/
theorem spec_C6_counterexample :
    (bindSingle (bindSingle emptyWorld 0 0 5 "c") 0 0 5 "c").delegates_.get 5 "c"
      = [⟨DelegateKind.singleBind, 0, 0, 5⟩, ⟨DelegateKind.singleBind, 0, 0, 5⟩]
    ∧ (dispatchCore (bindSingle (bindSingle emptyWorld 0 0 5 "c") 0 0 5 "c")
        ⟨5, 9⟩ "c").trace
      = [(⟨DelegateKind.singleBind, 0, 0, 5⟩, 9), (⟨DelegateKind.singleBind, 0, 0, 5⟩, 9)] := by
  constructor
  · rfl
  · rfl

/-- Claim C6, amended: the registration operations carry no requirement level
and perform no duplicate check; re-registering an identical tuple with any of
the three operations never fails and simply appends a second, independent
delegate after the first. -/
theorem spec_C6_amended (w : World) (recv : ModuleId) (tgt : TargetId)
    (R : MessageType) (ch : Channel) :
    (registerListener (registerListener w recv tgt R ch) recv tgt R ch).delegates_.get R ch
      = w.delegates_.get R ch
        ++ [⟨DelegateKind.listener, recv, tgt, R⟩, ⟨DelegateKind.listener, recv, tgt, R⟩]
    ∧ (bindSingle (bindSingle w recv tgt R ch) recv tgt R ch).delegates_.get R ch
      = w.delegates_.get R ch
        ++ [⟨DelegateKind.singleBind, recv, tgt, R⟩, ⟨DelegateKind.singleBind, recv, tgt, R⟩]
    ∧ (bindMulti (bindMulti w recv tgt R ch) recv tgt R ch).delegates_.get R ch
      = w.delegates_.get R ch
        ++ [⟨DelegateKind.multiBind, recv, tgt, R⟩, ⟨DelegateKind.multiBind, recv, tgt, R⟩] := by
  refine ⟨?_, ?_, ?_⟩ <;>
    simp [registerListener, bindSingle, bindMulti, DelegateMap.get_push_same]

/-- Claim C10: registration deduplicates nothing — two identical registrations
create two independent delegates, and a matching dispatch invokes both: a
twice-registered listener method is called twice per dispatch, and a
twice-bound MultiBind slot receives two appended entries per dispatch. -/
theorem spec_C10 (recv : ModuleId) (tgt : TargetId) (R : MessageType)
    (C : Channel) (r : Ref) :
    (dispatchCore (registerListener (registerListener emptyWorld recv tgt R C)
        recv tgt R C) ⟨R, r⟩ C).trace
      = [(⟨DelegateKind.listener, recv, tgt, R⟩, r),
         (⟨DelegateKind.listener, recv, tgt, R⟩, r)]
    ∧ getMulti (dispatchCore (bindMulti (bindMulti emptyWorld recv tgt R C)
        recv tgt R C) ⟨R, r⟩ C).multiSlots (recv, tgt)
      = [r, r] := by
  have hsel : ∀ d : BaseDelegate,
      selectDelegates [(R, [(C, [d, d])])] R C = [d, d] := by
    intro d
    by_cases hc : C = "" <;>
      simp [selectDelegates, DelegateMap.get, ChannelMap.get, hc]
  have hreg : ∀ d : BaseDelegate,
      DelegateMap.push (DelegateMap.push [] R C d) R C d = [(R, [(C, [d, d])])] := by
    intro d
    simp [DelegateMap.push, ChannelMap.push]
  constructor
  · show ((selectDelegates (DelegateMap.push (DelegateMap.push [] R C
        ⟨DelegateKind.listener, recv, tgt, R⟩) R C
        ⟨DelegateKind.listener, recv, tgt, R⟩) R C).foldl
        (fun acc d => deliver acc d ⟨R, r⟩) _).trace = _
    rw [hreg, hsel]
    simp [deliver, registerListener, emptyWorld]
  · show getMulti ((selectDelegates (DelegateMap.push (DelegateMap.push [] R C
        ⟨DelegateKind.multiBind, recv, tgt, R⟩) R C
        ⟨DelegateKind.multiBind, recv, tgt, R⟩) R C).foldl
        (fun acc d => deliver acc d ⟨R, r⟩) _).multiSlots (recv, tgt) = _
    rw [hreg, hsel]
    simp [deliver, pushMulti, getMulti, bindMulti, emptyWorld]

/-! ### Store lemmas for the copy-dispatch claim -/

theorem getStore_append_ne (l : List (Ref × Payload)) (f r : Ref) (c : Payload)
    (h : r ≠ f) : getStore (l ++ [(f, c)]) r = getStore l r := by
  induction l with
  | nil => simp [getStore, Ne.symm h]
  | cons head rest ih =>
      obtain ⟨r', p⟩ := head
      by_cases hr : r' = r
      · simp [getStore, hr]
      · simp [getStore, hr, ih]

theorem getStore_append_fresh (l : List (Ref × Payload)) (f : Ref) (c : Payload)
    (h : ∀ p ∈ l, p.1 ≠ f) : getStore (l ++ [(f, c)]) f = c := by
  induction l with
  | nil => simp [getStore]
  | cons head rest ih =>
      obtain ⟨r', p⟩ := head
      have hne : r' ≠ f := h (r', p) (by simp)
      simp [getStore, hne]
      exact ih (fun q hq => h q (by simp [hq]))

/-- Claim C9: the const-reference dispatch overload copies the caller's object
into a fresh allocation: the fresh reference differs from the caller's, the
caller's allocation keeps its payload, the copy carries the same payload, every
delegate invocation of the dispatch receives the one fresh reference (never the
caller's), and every slot write of the dispatch stores only that fresh
reference. -/
theorem spec_C9 (w : World) (S : MessageType) (origRef : Ref) (ch : Channel)
    (horig : origRef < w.nextRef) (hstore : ∀ p ∈ w.store, p.1 < w.nextRef) :
    w.nextRef ≠ origRef
    ∧ getStore (dispatchMessageRef w S origRef ch).store origRef
        = getStore w.store origRef
    ∧ getStore (dispatchMessageRef w S origRef ch).store w.nextRef
        = getStore w.store origRef
    ∧ (dispatchMessageRef w S origRef ch).trace
        = w.trace ++ (selectDelegates w.delegates_ S ch).map (fun d => (d, w.nextRef))
    ∧ (∀ key, getSingle (dispatchMessageRef w S origRef ch).singleSlots key
          = getSingle w.singleSlots key
        ∨ getSingle (dispatchMessageRef w S origRef ch).singleSlots key
          = some w.nextRef)
    ∧ (∀ key, ∃ n, getMulti (dispatchMessageRef w S origRef ch).multiSlots key
        = getMulti w.multiSlots key ++ List.replicate n w.nextRef) := by
  have hne : w.nextRef ≠ origRef := fun h => absurd (h ▸ horig) (lt_irrefl _)
  have hst : (dispatchMessageRef w S origRef ch).store
      = w.store ++ [(w.nextRef, getStore w.store origRef)] := by
    unfold dispatchMessageRef dispatchMessageShared
    rw [dispatchCore_store]
  refine ⟨hne, ?_, ?_, ?_, ?_, ?_⟩
  · rw [hst]
    exact getStore_append_ne _ _ _ _ (Ne.symm hne)
  · rw [hst]
    exact getStore_append_fresh _ _ _ (fun p hp => Nat.ne_of_lt (hstore p hp))
  · unfold dispatchMessageRef dispatchMessageShared
    rw [dispatchCore_trace]
  · intro key
    unfold dispatchMessageRef dispatchMessageShared dispatchCore
    exact foldl_deliver_getSingle_cases _ _ _ key
  · intro key
    unfold dispatchMessageRef dispatchMessageShared dispatchCore
    exact foldl_deliver_getMulti_replicate _ _ _ key

/-- A concrete world for the C9 witness: one allocation with payload 7,
allocation counter 1. -/
def wC9 : World := ⟨[], [], [], [], [(0, 7)], 1⟩

/-- Witness for C9: in a world holding allocation 0, a const-reference
dispatch of that object stores a fresh copy whose payload equals the
original's. -/
theorem spec_C9_witness :
    getStore (dispatchMessageRef wC9 3 0 "").store wC9.nextRef
      = getStore wC9.store 0 :=
  (spec_C9 wC9 3 0 "" (by decide) (by decide)).2.2.1

/-! ### Requirement validation (spec-modelled) -/

/-- Modelled from the spec: the REQUIRED/OPTIONAL requirement levels of a
binding.  No requirement machinery appears in the available sources; the level
is part of the BindingRecord bookkeeping described in the specification. -/
inductive RequirementLevel where
  | required
  | optional
deriving DecidableEq, Repr

/-- Modelled from the spec: a BindingRecord, one per bind/register call,
storing the Module identity, MessageType, Channel and requirement level, used
only for post-cycle validation. -/
structure BindingRecord where
  moduleId : ModuleId
  msgType : MessageType
  channel : Channel
  level : RequirementLevel
deriving DecidableEq, Repr

/-- Modelled from the spec: a dispatch of (type, channel) satisfies a
BindingRecord when the message types agree and the record's channel is the
dispatched channel or the wildcard empty channel. -/
def recordSatisfiedBy (rec : BindingRecord) (e : MessageType × Channel) : Bool :=
  decide (e.1 = rec.msgType) && (decide (rec.channel = "") || decide (e.2 = rec.channel))

/-- Number of dispatches in the validation scope that satisfied the record. -/
def matchCount (rec : BindingRecord) (evs : List (MessageType × Channel)) : Nat :=
  (evs.filter (fun e => recordSatisfiedBy rec e)).length

/-- Modelled from the spec: `checkRequirements` — absent from the available
sources — returns the list of unsatisfied REQUIRED BindingRecords for the
scope's dispatches; the check fails exactly when this list is non-empty. -/
def checkRequirements (records : List BindingRecord)
    (evs : List (MessageType × Channel)) : List BindingRecord :=
  records.filter (fun rec =>
    decide (rec.level = RequirementLevel.required) && decide (matchCount rec evs = 0))

/-- Claim C7: checkRequirements reports failure (a non-empty unsatisfied list)
if and only if some REQUIRED BindingRecord received zero matching dispatches
in the scope, and every record it reports is REQUIRED with zero matches — an
OPTIONAL record is never reported, whatever its dispatch count. -/
theorem spec_C7 (records : List BindingRecord) (evs : List (MessageType × Channel)) :
    (checkRequirements records evs ≠ []
      ↔ ∃ rec, rec ∈ records ∧ rec.level = RequirementLevel.required
          ∧ matchCount rec evs = 0)
    ∧ ∀ rec, rec ∈ checkRequirements records evs →
        rec.level = RequirementLevel.required ∧ matchCount rec evs = 0 := by
  constructor
  · rw [Ne, List.eq_nil_iff_forall_not_mem]
    push_neg
    constructor
    · rintro ⟨rec, hrec⟩
      rw [checkRequirements, List.mem_filter] at hrec
      exact ⟨rec, hrec.1, by simpa using hrec.2⟩
    · rintro ⟨rec, hmem, hlvl, hcnt⟩
      exact ⟨rec, by rw [checkRequirements, List.mem_filter]; exact ⟨hmem, by simp [hlvl, hcnt]⟩⟩
  · intro rec hrec
    rw [checkRequirements, List.mem_filter] at hrec
    simpa using hrec.2

/-- A REQUIRED BindingRecord for the C7 witness. -/
def recC7 : BindingRecord := ⟨0, 5, "", RequirementLevel.required⟩

/-- Witness for C7: with one REQUIRED record and no dispatches, the failing
check exhibits an unsatisfied REQUIRED record. -/
theorem spec_C7_witness :
    ∃ rec, rec ∈ [recC7] ∧ rec.level = RequirementLevel.required
      ∧ matchCount rec [] = 0 :=
  (spec_C7 [recC7] []).1.mp (by decide)
